import Mathlib

/-!
Shallow embedding of the Prompt Manager CRUD stack (models.py, database.py,
services.py) and proofs of its specified properties.

Python strings are modelled as explicit character lists (`Str := List Char`),
so that splitting, trimming and joining are plain structural recursions.
The MySQL table is modelled as an explicit list of rows plus the
AUTO_INCREMENT counter; the connection handle being unset is a boolean flag,
and a statement-level driver error (the `Error` caught by each `try/except`
block in database.py) is an explicit `fault` argument to each operation, so
that every operation is a total function returning the failure signal the
Python code returns from its `except` branch.
-/

/-- Python `str` modelled as a list of characters. -/
abbrev Str := List Char

/-- The ASCII whitespace characters removed by Python's `str.strip()`. -/
def isSpaceChar (c : Char) : Bool :=
  c == ' ' || c == '\t' || c == '\n' || c == '\r' || c == '\x0b' || c == '\x0c'

/-- Python `s.strip()`: drop leading and trailing whitespace. -/
def trimChars (l : Str) : Str :=
  ((l.dropWhile isSpaceChar).reverse.dropWhile isSpaceChar).reverse

/-- Python `s.split(',')`.  On the empty string it yields `[""]`, like Python. -/
def splitComma : Str → List Str
  | [] => [[]]
  | c :: rest =>
    if c = ',' then [] :: splitComma rest
    else
      match splitComma rest with
      | [] => [[c]]
      | t :: ts => (c :: t) :: ts

/-- Python `",".join(parts)`. -/
def joinComma : List Str → Str
  | [] => []
  | [t] => t
  | t :: ts => t ++ ',' :: joinComma ts

/-! ## models.py -/

/-- The `Prompt` dataclass (models.py lines 4-20). -/
structure Prompt where
  id : Option Nat
  text : Str
  tags : List Str
  tool : Str
  is_favorite : Bool
deriving Repr, DecidableEq

/-- The dictionary shape produced by `Prompt.to_dict` and consumed by
`Prompt.from_dict` (a DB row fetched with `cursor(dictionary=True)` has the
same shape, with `id` always present). -/
structure PromptDict where
  id : Option Nat
  text : Str
  tags : Str
  tool : Str
  is_favorite : Bool
deriving Repr, DecidableEq

/-- Tag serialization used by `to_dict` (models.py line 30) and inlined in
`insert_prompt` / `update_prompt` (database.py lines 81, 132):
`",".join(tags)`. -/
def joinTags (tags : List Str) : Str := joinComma tags

/-- Tag deserialization from `from_dict` (models.py lines 42-44):
`[tag.strip() for tag in str(data['tags']).split(',') if tag.strip()]`,
guarded by `if data.get('tags')` (the empty string is falsy). -/
def parseTags (s : Str) : List Str :=
  if s = [] then []
  else ((splitComma s).map trimChars).filter (fun t => t ≠ [])

/-- `Prompt.to_dict` (models.py lines 22-33). -/
def Prompt.to_dict (p : Prompt) : PromptDict :=
  { id := p.id, text := p.text, tags := joinTags p.tags,
    tool := p.tool, is_favorite := p.is_favorite }

/-- `Prompt.from_dict` (models.py lines 35-52). -/
def Prompt.from_dict (d : PromptDict) : Prompt :=
  { id := d.id, text := d.text, tags := parseTags d.tags,
    tool := d.tool, is_favorite := d.is_favorite }

/-! ## database.py: table state -/

/-- A row of the `prompts` table (schema in database.py lines 54-62):
`id` is the AUTO_INCREMENT primary key, `tags` is the stored comma-joined
string. -/
structure Row where
  id : Nat
  text : Str
  tags : Str
  tool : Str
  is_favorite : Bool
deriving Repr, DecidableEq

/-- A fetched row as the dictionary handed to `Prompt.from_dict`. -/
def Row.toDict (r : Row) : PromptDict :=
  { id := some r.id, text := r.text, tags := r.tags,
    tool := r.tool, is_favorite := r.is_favorite }

/-- The MySQL database state: the `prompts` table contents, the next
AUTO_INCREMENT id, and whether `create_table` has run. -/
structure DBState where
  rows : List Row
  nextId : Nat
  tableExists : Bool
deriving Repr, DecidableEq

/-- The `PromptDB` object: `connected = false` models
`self.connection = None` (set when `connect()` fails, database.py line 33). -/
structure PromptDB where
  connected : Bool
  db : DBState
deriving Repr, DecidableEq

/-! ## database.py: SQL LIKE

`search_prompts` issues `... WHERE text LIKE %s OR tags LIKE %s OR tool
LIKE %s` with the pattern `f"%{keyword}%"` (database.py lines 198-206).
MySQL's default collation compares case-insensitively, `%` / `_` in the
pattern are wildcards, and backslash is the default LIKE escape character:
`\x` in the pattern matches the literal `x` (so `\%` is a literal percent,
`\\` a literal backslash, and an escaped ordinary character matches that
character).  `likeMatch pat s` is SQL LIKE pattern matching with
case-insensitive character comparison and this escape rule. -/

/-- Case-insensitive character equality (MySQL's default `_ci` collation). -/
def charEqCI (a b : Char) : Bool := a.toLower == b.toLower

/-- `anySuffix f s`: `f` holds of some suffix of `s` (including `s` itself
and `[]`). -/
def anySuffix (f : Str → Bool) : Str → Bool
  | [] => f []
  | c :: s => f (c :: s) || anySuffix f s

/-- SQL LIKE matching: `%` matches any sequence (via `anySuffix`), `_` any
single character, `\` escapes the next pattern character (which then
matches literally), and any other pattern character matches
case-insensitively.  A trailing lone `\` is taken as a literal backslash;
the patterns `search_prompts` builds always end in `%`, so that case is
never reached from them. -/
def likeMatch : List Char → List Char → Bool
  | [], s => s.isEmpty
  | c :: p, s =>
    if c = '%' then anySuffix (likeMatch p) s
    else if c = '\\' then
      match p, s with
      | e :: p2, d :: s2 => charEqCI e d && likeMatch p2 s2
      | [], d :: s2 => charEqCI '\\' d && s2.isEmpty
      | _, [] => false
    else
      match s with
      | [] => false
      | d :: s2 => if c = '_' then likeMatch p s2 else charEqCI c d && likeMatch p s2

/-- The three-column LIKE filter of `search_prompts` at one row. -/
def likeFilter (kw : Str) (r : Row) : Bool :=
  likeMatch ('%' :: (kw ++ ['%'])) r.text ||
    likeMatch ('%' :: (kw ++ ['%'])) r.tags ||
      likeMatch ('%' :: (kw ++ ['%'])) r.tool

/-! ## database.py: operations

Each operation takes a `fault` flag: `true` means the underlying
`cursor.execute`/commit raises the driver `Error` that the corresponding
`except` block catches (rolling back, so the state is unchanged). -/

/-- `PromptDB.create_table` (database.py lines 43-68). -/
def PromptDB.create_table (st : PromptDB) (fault : Bool) : PromptDB :=
  if !st.connected then st
  else if fault then st
  else { st with db := { st.db with tableExists := true } }

/-- `PromptDB.insert_prompt` (database.py lines 70-92): returns the new id,
or `none` on no connection / statement failure (after rollback). -/
def PromptDB.insert_prompt (st : PromptDB) (fault : Bool) (p : Prompt) :
    Option Nat × PromptDB :=
  if !st.connected then (none, st)
  else if fault then (none, st)
  else
    let r : Row := { id := st.db.nextId, text := p.text, tags := joinTags p.tags,
                     tool := p.tool, is_favorite := p.is_favorite }
    let db2 : DBState :=
      { rows := st.db.rows ++ [r], nextId := st.db.nextId + 1,
        tableExists := st.db.tableExists }
    (some st.db.nextId, { st with db := db2 })

/-- `PromptDB.get_prompt_by_id` (database.py lines 94-116). -/
def PromptDB.get_prompt_by_id (st : PromptDB) (fault : Bool) (pid : Nat) :
    Option Prompt :=
  if !st.connected then none
  else if fault then none
  else
    match st.db.rows.find? (fun r => r.id == pid) with
    | some r => some (Prompt.from_dict r.toDict)
    | none => none

/-- The SET clause of the UPDATE statement (database.py line 131) applied to
a matching row: all four mutable columns are overwritten. -/
def Row.setFrom (r : Row) (p : Prompt) : Row :=
  { r with text := p.text, tags := joinTags p.tags, tool := p.tool,
           is_favorite := p.is_favorite }

/-- `PromptDB.update_prompt` (database.py lines 118-143): requires a present
id; returns whether a row was affected (`cursor.rowcount > 0`). -/
def PromptDB.update_prompt (st : PromptDB) (fault : Bool) (p : Prompt) :
    Bool × PromptDB :=
  if !st.connected then (false, st)
  else
    match p.id with
    | none => (false, st)
    | some pid =>
      if fault then (false, st)
      else
        let rows2 := st.db.rows.map (fun r => if r.id == pid then r.setFrom p else r)
        (st.db.rows.any (fun r => r.id == pid),
         { st with db := { st.db with rows := rows2 } })

/-- `PromptDB.delete_prompt` (database.py lines 145-165). -/
def PromptDB.delete_prompt (st : PromptDB) (fault : Bool) (pid : Nat) :
    Bool × PromptDB :=
  if !st.connected then (false, st)
  else if fault then (false, st)
  else
    let rows2 := st.db.rows.filter (fun r => !(r.id == pid))
    (st.db.rows.any (fun r => r.id == pid),
     { st with db := { st.db with rows := rows2 } })

/-- `PromptDB.get_all_prompts` (database.py lines 167-186). -/
def PromptDB.get_all_prompts (st : PromptDB) (fault : Bool) : List Prompt :=
  if !st.connected then []
  else if fault then []
  else st.db.rows.map (fun r => Prompt.from_dict r.toDict)

/-- `PromptDB.search_prompts` (database.py lines 188-213). -/
def PromptDB.search_prompts (st : PromptDB) (fault : Bool) (kw : Str) :
    List Prompt :=
  if !st.connected then []
  else if fault then []
  else (st.db.rows.filter (likeFilter kw)).map (fun r => Prompt.from_dict r.toDict)

/-! ## services.py

Service operations that issue two DB calls take one fault flag per call. -/

/-- `PromptService.add_prompt` (services.py lines 13-24). -/
def PromptService.add_prompt (st : PromptDB) (fault : Bool)
    (text : Str) (tags : List Str) (tool : Str) : Option Nat × PromptDB :=
  PromptDB.insert_prompt st fault
    { id := none, text := text, tags := tags, tool := tool, is_favorite := false }

/-- `PromptService.get_prompt` (services.py lines 26-34). -/
def PromptService.get_prompt (st : PromptDB) (fault : Bool) (pid : Nat) :
    Option Prompt :=
  PromptDB.get_prompt_by_id st fault pid

/-- `PromptService.update_prompt` (services.py lines 36-55): load by id,
overwrite all four fields, persist. -/
def PromptService.update_prompt (st : PromptDB) (faultGet faultUpd : Bool)
    (pid : Nat) (text : Str) (tags : List Str) (tool : Str)
    (is_favorite : Bool) : Bool × PromptDB :=
  match PromptDB.get_prompt_by_id st faultGet pid with
  | some p =>
    PromptDB.update_prompt st faultUpd
      { p with text := text, tags := tags, tool := tool, is_favorite := is_favorite }
  | none => (false, st)

/-- `PromptService.delete_prompt` (services.py lines 57-65). -/
def PromptService.delete_prompt (st : PromptDB) (fault : Bool) (pid : Nat) :
    Bool × PromptDB :=
  PromptDB.delete_prompt st fault pid

/-- `PromptService.list_all_prompts` (services.py lines 67-73). -/
def PromptService.list_all_prompts (st : PromptDB) (fault : Bool) : List Prompt :=
  PromptDB.get_all_prompts st fault

/-- `PromptService.search_and_filter_prompts` (services.py lines 75-94):
`keyword = none` is Python `None`; `some []` is the empty string (both are
falsy, so both fall back to `get_all_prompts`). -/
def PromptService.search_and_filter_prompts (st : PromptDB) (fault : Bool)
    (keyword : Option Str) (is_favorite : Option Bool) : List Prompt :=
  let prompts :=
    match keyword with
    | some kw => if kw ≠ [] then PromptDB.search_prompts st fault kw
                 else PromptDB.get_all_prompts st fault
    | none => PromptDB.get_all_prompts st fault
  match is_favorite with
  | some b => prompts.filter (fun p => p.is_favorite == b)
  | none => prompts

/-- `PromptService.toggle_favorite_status` (services.py lines 96-109). -/
def PromptService.toggle_favorite_status (st : PromptDB)
    (faultGet faultUpd : Bool) (pid : Nat) : Option Bool × PromptDB :=
  match PromptDB.get_prompt_by_id st faultGet pid with
  | some p =>
    let p2 : Prompt := { p with is_favorite := !p.is_favorite }
    let res := PromptDB.update_prompt st faultUpd p2
    (if res.fst then some p2.is_favorite else none, res.snd)
  | none => (none, st)

/-! ## Well-formedness of the table state

These hold of every state reachable through the DAO: the AUTO_INCREMENT
counter is strictly above every stored id, and ids (the primary key) are
distinct. -/

/-- Invariant of reachable database states. -/
def PromptDB.wf (st : PromptDB) : Prop :=
  (∀ r ∈ st.db.rows, r.id < st.db.nextId) ∧
    (st.db.rows.map Row.id).Nodup

instance (st : PromptDB) : Decidable st.wf := by
  unfold PromptDB.wf
  infer_instance

/-! ## Lemmas about the string-level helpers -/

theorem splitComma_no_comma : ∀ t : Str, ',' ∉ t → splitComma t = [t] := by
  intro t ht
  induction t with
  | nil => rfl
  | cons c t ih =>
    have hc : c ≠ ',' := fun h => ht (h ▸ List.mem_cons_self c t)
    have ht2 : ',' ∉ t := fun h => ht (List.mem_cons_of_mem c h)
    simp only [splitComma, if_neg hc, ih ht2]

theorem splitComma_append_comma : ∀ t r : Str, ',' ∉ t →
    splitComma (t ++ ',' :: r) = t :: splitComma r := by
  intro t r ht
  induction t with
  | nil => simp [splitComma]
  | cons c t ih =>
    have hc : c ≠ ',' := fun h => ht (h ▸ List.mem_cons_self c t)
    have ht2 : ',' ∉ t := fun h => ht (List.mem_cons_of_mem c h)
    simp only [List.cons_append, splitComma, if_neg hc, List.append_eq, ih ht2]

theorem joinComma_cons_cons (t u : Str) (ts : List Str) :
    joinComma (t :: u :: ts) = t ++ ',' :: joinComma (u :: ts) := rfl

theorem splitComma_joinComma : ∀ ts : List Str, ts ≠ [] →
    (∀ t ∈ ts, ',' ∉ t) → splitComma (joinComma ts) = ts := by
  intro ts
  induction ts with
  | nil => intro h; exact absurd rfl h
  | cons t ts ih =>
    intro _ hall
    match ts with
    | [] => exact splitComma_no_comma t (hall t (List.mem_cons_self t []))
    | u :: ts2 =>
      rw [joinComma_cons_cons,
        splitComma_append_comma t _ (hall t (List.mem_cons_self t _)),
        ih (by simp) (fun x hx => hall x (List.mem_cons_of_mem t hx))]

theorem joinComma_ne_nil : ∀ ts : List Str, ts ≠ [] → (∀ t ∈ ts, t ≠ []) →
    joinComma ts ≠ [] := by
  intro ts h1 h2
  match ts with
  | [t] => exact h2 t (List.mem_cons_self t [])
  | t :: u :: ts2 =>
    rw [joinComma_cons_cons]
    cases t <;> simp

theorem map_trimChars_eq_self : ∀ ts : List Str, (∀ t ∈ ts, trimChars t = t) →
    ts.map trimChars = ts := by
  intro ts h
  induction ts with
  | nil => rfl
  | cons t ts ih =>
    simp only [List.map_cons, h t (List.mem_cons_self t ts),
      ih (fun x hx => h x (List.mem_cons_of_mem t hx))]

theorem filter_ne_nil_eq_self : ∀ ts : List Str, (∀ t ∈ ts, t ≠ []) →
    ts.filter (fun t => t ≠ []) = ts := by
  intro ts h
  induction ts with
  | nil => rfl
  | cons t ts ih =>
    simp only [List.filter_cons]
    rw [if_pos (by simpa using h t (List.mem_cons_self t ts)),
      ih (fun x hx => h x (List.mem_cons_of_mem t hx))]

/-- The round trip at the heart of tag storage: a list of tags that are
non-empty, comma-free and already stripped survives join-then-parse. -/
theorem parseTags_joinTags_clean (tags : List Str)
    (h : ∀ t ∈ tags, t ≠ [] ∧ ',' ∉ t ∧ trimChars t = t) :
    parseTags (joinTags tags) = tags := by
  match tags with
  | [] => rfl
  | t :: ts =>
    have hne : joinTags (t :: ts) ≠ [] :=
      joinComma_ne_nil _ (by simp) (fun x hx => (h x hx).1)
    unfold parseTags joinTags
    unfold joinTags at hne
    rw [if_neg hne, splitComma_joinComma _ (by simp) (fun x hx => (h x hx).2.1),
      map_trimChars_eq_self _ (fun x hx => (h x hx).2.2),
      filter_ne_nil_eq_self _ (fun x hx => (h x hx).1)]

/-! ## Trimming: idempotence and membership facts about `parseTags` -/

theorem dropWhile_head?_false {p : Char → Bool} : ∀ (l : Str) (x : Char),
    (l.dropWhile p).head? = some x → p x = false := by
  intro l
  induction l with
  | nil => intro x h; simp [List.dropWhile] at h
  | cons c t ih =>
    intro x h
    by_cases hc : p c
    · rw [List.dropWhile_cons, if_pos hc] at h
      exact ih x h
    · rw [List.dropWhile_cons, if_neg hc] at h
      simp only [List.head?_cons, Option.some.injEq] at h
      subst h
      exact Bool.of_not_eq_true hc

theorem dropWhile_eq_self_of_head? {p : Char → Bool} (l : Str)
    (h : ∀ x, l.head? = some x → p x = false) : l.dropWhile p = l := by
  cases l with
  | nil => rfl
  | cons c t =>
    rw [List.dropWhile_cons, if_neg]
    simp [h c rfl]

theorem getLast?_dropWhile {p : Char → Bool} : ∀ l : Str,
    l.dropWhile p ≠ [] → (l.dropWhile p).getLast? = l.getLast? := by
  intro l
  induction l with
  | nil => intro h; exact absurd rfl h
  | cons c t ih =>
    intro h
    by_cases hc : p c
    · rw [List.dropWhile_cons, if_pos hc] at h ⊢
      have ht : t ≠ [] := by
        intro he
        subst he
        exact h rfl
      rw [ih h]
      match t, ht with
      | u :: t2, _ => rw [List.getLast?_cons_cons]
    · rw [List.dropWhile_cons, if_neg hc]

theorem trimChars_idem (l : Str) : trimChars (trimChars l) = trimChars l := by
  unfold trimChars
  set a := l.dropWhile isSpaceChar with ha
  set b := a.reverse.dropWhile isSpaceChar with hb
  have hstep : b.reverse.dropWhile isSpaceChar = b.reverse := by
    apply dropWhile_eq_self_of_head?
    intro x hx
    rw [List.head?_reverse] at hx
    have hbne : b ≠ [] := by
      intro he
      rw [he] at hx
      simp at hx
    rw [hb, getLast?_dropWhile a.reverse (hb ▸ hbne), List.getLast?_reverse] at hx
    rw [ha] at hx
    exact dropWhile_head?_false l x hx
  rw [hstep, List.reverse_reverse, List.dropWhile_idempotent]

theorem parseTags_mem {s t : Str} (h : t ∈ parseTags s) :
    t ≠ [] ∧ trimChars t = t := by
  unfold parseTags at h
  by_cases hs : s = []
  · rw [if_pos hs] at h
    simp at h
  · rw [if_neg hs] at h
    have h1 := List.of_mem_filter h
    have h2 := List.mem_of_mem_filter h
    have h3 : t ≠ [] := by simpa using h1
    refine ⟨h3, ?_⟩
    rcases List.mem_map.mp h2 with ⟨u, _, hu⟩
    rw [← hu, trimChars_idem]

/-! ## Spec-side substring matching

The spec describes `searchByKeyword` as returning rows where the keyword is
a "case-insensitive substring" of a column.  These two definitions follow
the spec's words (not the code) and are related to the code's LIKE filter
below. -/

/-- Spec-side: `needle` starts `hay`, comparing characters
case-insensitively. -/
def isPrefCI : Str → Str → Bool
  | [], _ => true
  | _ :: _, [] => false
  | a :: xs, b :: ys => charEqCI a b && isPrefCI xs ys

/-- Spec-side: `needle` is a case-insensitive substring of `hay`. -/
def containsCI (needle : Str) : Str → Bool
  | [] => isPrefCI needle []
  | c :: t => isPrefCI needle (c :: t) || containsCI needle t

/-! ## LIKE pattern facts -/

theorem likeMatch_pct_cons (p : Str) (s : Str) :
    likeMatch ('%' :: p) s = anySuffix (likeMatch p) s := by
  rw [likeMatch.eq_def]
  rfl

theorem likeMatch_pct_all : ∀ s : Str, likeMatch ['%'] s = true := by
  intro s
  induction s with
  | nil => rfl
  | cons c s ih =>
    rw [likeMatch_pct_cons] at ih ⊢
    simp [anySuffix, ih]

theorem likeMatch_lit_pct : ∀ (p : Str), '%' ∉ p → '_' ∉ p → '\\' ∉ p →
    ∀ s : Str, likeMatch (p ++ ['%']) s = isPrefCI p s := by
  intro p
  induction p with
  | nil => intro _ _ _ s; simp [likeMatch_pct_all, isPrefCI]
  | cons c p ih =>
    intro h1 h2 h3 s
    have hc1 : c ≠ '%' := fun h => h1 (h ▸ List.mem_cons_self c p)
    have hc2 : c ≠ '_' := fun h => h2 (h ▸ List.mem_cons_self c p)
    have hc3 : c ≠ '\\' := fun h => h3 (h ▸ List.mem_cons_self c p)
    have hp1 : '%' ∉ p := fun h => h1 (List.mem_cons_of_mem c h)
    have hp2 : '_' ∉ p := fun h => h2 (List.mem_cons_of_mem c h)
    have hp3 : '\\' ∉ p := fun h => h3 (List.mem_cons_of_mem c h)
    cases s with
    | nil =>
      rw [List.cons_append, likeMatch.eq_def]
      simp only [hc1, hc3, if_false, isPrefCI]
    | cons d s2 =>
      rw [List.cons_append, likeMatch.eq_def]
      simp only [hc1, hc2, hc3, if_false, isPrefCI, List.append_eq,
        ih hp1 hp2 hp3 s2]

theorem likeMatch_pct_lit_pct (p : Str) (h1 : '%' ∉ p) (h2 : '_' ∉ p)
    (h3 : '\\' ∉ p) :
    ∀ s : Str, likeMatch ('%' :: (p ++ ['%'])) s = containsCI p s := by
  intro s
  induction s with
  | nil =>
    rw [likeMatch_pct_cons]
    simp [anySuffix, containsCI, likeMatch_lit_pct p h1 h2 h3]
  | cons c s ih =>
    rw [likeMatch_pct_cons] at ih ⊢
    simp only [anySuffix, containsCI, likeMatch_lit_pct p h1 h2 h3, ih]

/-! ## List helpers for the table state -/

theorem find?_id_eq_none (rows : List Row) (n : Nat)
    (h : ∀ r ∈ rows, r.id ≠ n) : rows.find? (fun r => r.id == n) = none := by
  rw [List.find?_eq_none]
  intro r hr
  simp [h r hr]

theorem find?_append_last (rows : List Row) (r : Row) (n : Nat)
    (h : ∀ x ∈ rows, x.id ≠ n) (hr : r.id = n) :
    (rows ++ [r]).find? (fun x => x.id == n) = some r := by
  rw [List.find?_append, find?_id_eq_none rows n h]
  simp [List.find?, hr]

theorem map_update_id_of_ne (rows : List Row) (n : Nat) (f : Row → Row)
    (h : ∀ r ∈ rows, r.id ≠ n) :
    rows.map (fun r => if r.id == n then f r else r) = rows := by
  have : rows.map (fun r => if r.id == n then f r else r) = rows.map id := by
    apply List.map_congr_left
    intro a ha
    simp [h a ha]
  rw [this, List.map_id]

theorem any_id_append_last (rows : List Row) (r : Row) (n : Nat) (hr : r.id = n) :
    (rows ++ [r]).any (fun x => x.id == n) = true := by
  simp [List.any_append, hr]

theorem any_id_of_find? (rows : List Row) (r : Row) (n : Nat)
    (h : rows.find? (fun x => x.id == n) = some r) :
    rows.any (fun x => x.id == n) = true := by
  have hm := List.mem_of_find?_eq_some h
  have hp := List.find?_some h
  exact List.any_eq_true.mpr ⟨r, hm, hp⟩

/-! ## Operations on a table whose last row has a fresh id -/

theorem get_fresh (rows : List Row) (r : Row) (m : Nat) (te : Bool)
    (h : ∀ x ∈ rows, x.id ≠ r.id) :
    PromptDB.get_prompt_by_id ⟨true, ⟨rows ++ [r], m, te⟩⟩ false r.id =
      some (Prompt.from_dict r.toDict) := by
  unfold PromptDB.get_prompt_by_id
  simp [find?_append_last rows r r.id h rfl]

theorem update_fresh (rows : List Row) (r : Row) (m : Nat) (te : Bool)
    (h : ∀ x ∈ rows, x.id ≠ r.id) (p : Prompt) (hp : p.id = some r.id) :
    PromptDB.update_prompt ⟨true, ⟨rows ++ [r], m, te⟩⟩ false p =
      (true, ⟨true, ⟨rows ++ [r.setFrom p], m, te⟩⟩) := by
  unfold PromptDB.update_prompt
  simp only [hp, Bool.not_true, Bool.false_eq_true, if_false]
  rw [List.map_append, map_update_id_of_ne rows r.id _ h]
  simp [any_id_append_last rows r r.id rfl]

theorem toggle_fresh (rows : List Row) (r : Row) (m : Nat) (te : Bool)
    (h : ∀ x ∈ rows, x.id ≠ r.id) :
    PromptService.toggle_favorite_status ⟨true, ⟨rows ++ [r], m, te⟩⟩ false false r.id =
      (some (!r.is_favorite),
       ⟨true, ⟨rows ++ [⟨r.id, r.text, joinTags (parseTags r.tags), r.tool,
                         !r.is_favorite⟩], m, te⟩⟩) := by
  unfold PromptService.toggle_favorite_status
  rw [get_fresh rows r m te h]
  dsimp only
  rw [update_fresh rows r m te h _ rfl]
  rfl

/-! ## Claims -/

/-- C1, counterexample: the tag `" a"` is non-empty and comma-free, yet
join-then-parse strips its leading space, so the round trip as claimed fails
(`parseTags` strips each piece). -/
theorem tag_roundtrip_cex :
    " a".data ≠ [] ∧ ',' ∉ " a".data ∧
      parseTags (joinTags [" a".data]) ≠ [" a".data] := by decide

/-- C1 (amended): for every list of tags in which no element is empty, none
contains a comma, and none carries leading or trailing whitespace, joining
as `to_dict` does and parsing back as `from_dict` does yields the original
list, order preserved. -/
theorem tag_roundtrip (tags : List Str)
    (h : ∀ t ∈ tags, t ≠ [] ∧ ',' ∉ t ∧ trimChars t = t) :
    parseTags (joinTags tags) = tags :=
  parseTags_joinTags_clean tags h

/-- C1 witness: the round trip at the concrete list `["ab", "c"]`. -/
theorem tag_roundtrip_witness :
    parseTags (joinTags ["ab".data, "c".data]) = ["ab".data, "c".data] :=
  tag_roundtrip ["ab".data, "c".data] (by decide)

/-- C5, counterexample: serialization does not drop empty tags: joining
`["a", "", "b"]` produces `"a,,b"`, whose entries (the comma-separated
pieces) include an empty entry arising from the empty tag. -/
theorem empty_tag_cex :
    joinTags ["a".data, [], "b".data] = "a,,b".data ∧
      [] ∈ splitComma (joinTags ["a".data, [], "b".data]) := by decide

/-- C5 (amended): empty entries are dropped on deserialize only.
Serialization joins all tags verbatim — for comma-free tags the joined
string splits back to the original list, empty entries included;
deserialization yields no empty elements; duplicates are not deduplicated
in either direction (a duplicated clean tag round-trips to both copies). -/
theorem empty_tag_handling (tags : List Str) (s u : Str)
    (h1 : tags ≠ []) (h2 : ∀ x ∈ tags, ',' ∉ x)
    (h3 : u ≠ []) (h4 : ',' ∉ u) (h5 : trimChars u = u) :
    splitComma (joinTags tags) = tags ∧
      [] ∉ parseTags s ∧
      parseTags (joinTags [u, u]) = [u, u] := by
  refine ⟨splitComma_joinComma tags h1 h2, ?_, ?_⟩
  · intro hmem
    exact (parseTags_mem hmem).1 rfl
  · exact parseTags_joinTags_clean [u, u]
      (by
        intro t ht
        have : t = u := by
          rcases List.mem_cons.mp ht with h | h
          · exact h
          · simpa using h
        exact this ▸ ⟨h3, h4, h5⟩)

/-- C5 witness: the amended statement at `tags = ["a", ""]`,
`s = "x,,y"`, `u = "q"`. -/
theorem empty_tag_handling_witness :
    splitComma (joinTags ["a".data, []]) = ["a".data, []] ∧
      [] ∉ parseTags "x,,y".data ∧
      parseTags (joinTags ["q".data, "q".data]) = ["q".data, "q".data] :=
  empty_tag_handling ["a".data, []] "x,,y".data "q".data
    (by decide) (by decide) (by decide) (by decide) (by decide)

/-- C4, counterexample: inserting an entity whose single tag contains a
comma succeeds (id 1), but `getById` then returns an entity whose tags
differ from the inserted ones (the comma-joined storage is lossy), so the
claim fails for this entity. -/
theorem insert_then_get_cex :
    PromptDB.insert_prompt ⟨true, ⟨[], 1, true⟩⟩ false
        ⟨none, "t".data, ["a,b".data], "x".data, false⟩ =
      (some 1, ⟨true, ⟨[⟨1, "t".data, "a,b".data, "x".data, false⟩], 2, true⟩⟩) ∧
      PromptDB.get_prompt_by_id
          ⟨true, ⟨[⟨1, "t".data, "a,b".data, "x".data, false⟩], 2, true⟩⟩ false 1 ≠
        some ⟨some 1, "t".data, ["a,b".data], "x".data, false⟩ := by decide

/-- C4 (amended): for every entity whose tags are non-empty, comma-free and
carry no surrounding whitespace, if insert on a well-formed state succeeds
with id `k`, then `getById k` returns the entity with all fields equal and
id `k`. -/
theorem insert_then_get (st st2 : PromptDB) (p : Prompt) (k : Nat)
    (hwf : st.wf)
    (hins : PromptDB.insert_prompt st false p = (some k, st2))
    (htags : ∀ t ∈ p.tags, t ≠ [] ∧ ',' ∉ t ∧ trimChars t = t) :
    PromptDB.get_prompt_by_id st2 false k = some { p with id := some k } := by
  obtain ⟨conn, rows, n, te⟩ := st
  unfold PromptDB.insert_prompt at hins
  cases conn with
  | false => simp at hins
  | true =>
    simp only [Bool.not_true, Bool.false_eq_true, if_false, Prod.mk.injEq,
      Option.some.injEq] at hins
    obtain ⟨hk, hst2⟩ := hins
    subst hk
    subst hst2
    have h : ∀ x ∈ rows,
        x.id ≠ (⟨n, p.text, joinTags p.tags, p.tool, p.is_favorite⟩ : Row).id := by
      intro x hx
      exact Nat.ne_of_lt (hwf.1 x hx)
    have hg := get_fresh rows ⟨n, p.text, joinTags p.tags, p.tool, p.is_favorite⟩
      (n + 1) te h
    rw [hg]
    unfold Prompt.from_dict Row.toDict
    simp [parseTags_joinTags_clean p.tags htags]

/-- C4 witness: insert-then-get at a concrete clean entity. -/
theorem insert_then_get_witness :
    PromptDB.get_prompt_by_id
        ⟨true, ⟨[⟨5, "hello".data, "ml".data, "gpt".data, true⟩], 6, true⟩⟩ false 5 =
      some ⟨some 5, "hello".data, ["ml".data], "gpt".data, true⟩ :=
  insert_then_get ⟨true, ⟨[], 5, true⟩⟩
    ⟨true, ⟨[⟨5, "hello".data, "ml".data, "gpt".data, true⟩], 6, true⟩⟩
    ⟨none, "hello".data, ["ml".data], "gpt".data, true⟩ 5
    (by decide) (by decide) (by decide)

/-- C10: storage `update_prompt` on an entity with absent id returns false
and leaves the state unchanged, whatever the connection and fault state. -/
theorem update_absent_id (st : PromptDB) (fault : Bool) (p : Prompt)
    (h : p.id = none) : PromptDB.update_prompt st fault p = (false, st) := by
  unfold PromptDB.update_prompt
  rw [h]
  by_cases hc : st.connected <;> simp [hc]

/-- C10 witness: the absent-id update at a concrete state and entity. -/
theorem update_absent_id_witness :
    PromptDB.update_prompt ⟨true, ⟨[⟨1, "t".data, [], [], false⟩], 2, true⟩⟩ false
        ⟨none, "u".data, [], [], true⟩ =
      (false, ⟨true, ⟨[⟨1, "t".data, [], [], false⟩], 2, true⟩⟩) :=
  update_absent_id ⟨true, ⟨[⟨1, "t".data, [], [], false⟩], 2, true⟩⟩ false
    ⟨none, "u".data, [], [], true⟩ rfl

/-- C6: updating a non-existent id fails without writing — both the service
`update_prompt` and the storage `update_prompt` return false and leave the
state unchanged — and when the id does match a row, the service update
overwrites all four mutable fields of that row (full replace). -/
theorem update_nonexistent_and_overwrite (st : PromptDB)
    (fault faultGet faultUpd : Bool) (p : Prompt) (pid : Nat) (text : Str)
    (tags : List Str) (tool : Str) (fav : Bool) (r : Row) :
    (p.id = some pid → (∀ x ∈ st.db.rows, x.id ≠ pid) →
      PromptDB.update_prompt st fault p = (false, st)) ∧
    ((∀ x ∈ st.db.rows, x.id ≠ pid) →
      PromptService.update_prompt st faultGet faultUpd pid text tags tool fav =
        (false, st)) ∧
    (st.connected = true → st.db.rows.find? (fun x => x.id == pid) = some r →
      PromptService.update_prompt st false false pid text tags tool fav =
        (true,
         ⟨st.connected,
          ⟨st.db.rows.map (fun x =>
             if x.id == pid then ⟨x.id, text, joinTags tags, tool, fav⟩ else x),
           st.db.nextId, st.db.tableExists⟩⟩)) := by
  refine ⟨?_, ?_, ?_⟩
  · intro hp h
    unfold PromptDB.update_prompt
    by_cases hc : st.connected
    · rw [hp]
      simp only [hc, Bool.not_true, Bool.false_eq_true, if_false]
      cases fault with
      | true => rfl
      | false =>
        have hany : st.db.rows.any (fun x => x.id == pid) = false := by
          simp only [List.any_eq_false]
          intro x hx
          simp [h x hx]
        rw [map_update_id_of_ne st.db.rows pid _ h, hany,
          if_neg (show ¬(false = true) by simp), ← hc]
    · simp [hc]
  · intro h
    unfold PromptService.update_prompt PromptDB.get_prompt_by_id
    by_cases hc : st.connected
    · cases faultGet with
      | true => simp [hc]
      | false => simp [hc, find?_id_eq_none st.db.rows pid h]
    · simp [hc]
  · intro hc hfind
    have hid : r.id = pid := by simpa using List.find?_some hfind
    unfold PromptService.update_prompt PromptDB.get_prompt_by_id
    simp only [hc, Bool.not_true, Bool.false_eq_true, if_false, hfind]
    unfold PromptDB.update_prompt
    simp only [hc, Bool.not_true, Bool.false_eq_true, if_false]
    dsimp only [Prompt.from_dict, Row.toDict]
    rw [hid]
    have hany := any_id_of_find? st.db.rows r pid hfind
    simp [hany, Row.setFrom]

/-- C6 witness: concrete instances of all three conjuncts. -/
theorem update_nonexistent_and_overwrite_witness :
    PromptDB.update_prompt ⟨true, ⟨[⟨1, "t".data, [], [], false⟩], 2, true⟩⟩ false
        ⟨some 7, "u".data, [], [], true⟩ =
      (false, ⟨true, ⟨[⟨1, "t".data, [], [], false⟩], 2, true⟩⟩) ∧
    PromptService.update_prompt ⟨true, ⟨[⟨1, "t".data, [], [], false⟩], 2, true⟩⟩
        false false 7 "u".data [] [] true =
      (false, ⟨true, ⟨[⟨1, "t".data, [], [], false⟩], 2, true⟩⟩) ∧
    PromptService.update_prompt ⟨true, ⟨[⟨1, "t".data, [], [], false⟩], 2, true⟩⟩
        false false 1 "u".data ["v".data] "w".data true =
      (true, ⟨true, ⟨[⟨1, "u".data, "v".data, "w".data, true⟩], 2, true⟩⟩) := by
  have h := update_nonexistent_and_overwrite
    ⟨true, ⟨[⟨1, "t".data, [], [], false⟩], 2, true⟩⟩ false false false
    ⟨some 7, "u".data, [], [], true⟩ 7 "u".data [] [] true
    ⟨1, "t".data, [], [], false⟩
  have h2 := update_nonexistent_and_overwrite
    ⟨true, ⟨[⟨1, "t".data, [], [], false⟩], 2, true⟩⟩ false false false
    ⟨some 7, "u".data, [], [], true⟩ 1 "u".data ["v".data] "w".data true
    ⟨1, "t".data, [], [], false⟩
  refine ⟨h.1 rfl (by decide), h.2.1 (by decide), ?_⟩
  have h3 := h2.2.2 rfl (by decide)
  simpa using h3

/-- C2: `search_and_filter_prompts` equals `search_prompts` on a non-empty
keyword and `get_all_prompts` on an empty or absent keyword, filtered by
`is_favorite` exactly when the flag is present. -/
theorem search_filter_composition (st : PromptDB) (fault : Bool) (kw : Str)
    (b : Bool) :
    (kw ≠ [] → PromptService.search_and_filter_prompts st fault (some kw) none =
      PromptDB.search_prompts st fault kw) ∧
    (kw ≠ [] →
      PromptService.search_and_filter_prompts st fault (some kw) (some b) =
        (PromptDB.search_prompts st fault kw).filter
          (fun p => p.is_favorite == b)) ∧
    (PromptService.search_and_filter_prompts st fault (some []) none =
      PromptDB.get_all_prompts st fault) ∧
    (PromptService.search_and_filter_prompts st fault (some []) (some b) =
      (PromptDB.get_all_prompts st fault).filter
        (fun p => p.is_favorite == b)) ∧
    (PromptService.search_and_filter_prompts st fault none none =
      PromptDB.get_all_prompts st fault) ∧
    (PromptService.search_and_filter_prompts st fault none (some b) =
      (PromptDB.get_all_prompts st fault).filter
        (fun p => p.is_favorite == b)) := by
  unfold PromptService.search_and_filter_prompts
  exact ⟨fun h => by simp [h], fun h => by simp [h], by simp, by simp,
    by simp, by simp⟩

/-- C2 witness: the keyword-plus-favorite composition at a concrete state
(two keyword matches, one favorite). -/
theorem search_filter_composition_witness :
    PromptService.search_and_filter_prompts
        ⟨true, ⟨[⟨1, "use gpt now".data, [], [], true⟩,
                 ⟨2, "gpt tips".data, [], [], false⟩,
                 ⟨3, "vim".data, [], [], true⟩], 4, true⟩⟩ false
        (some "gpt".data) (some true) =
      (PromptDB.search_prompts
          ⟨true, ⟨[⟨1, "use gpt now".data, [], [], true⟩,
                   ⟨2, "gpt tips".data, [], [], false⟩,
                   ⟨3, "vim".data, [], [], true⟩], 4, true⟩⟩ false
          "gpt".data).filter (fun p => p.is_favorite == true) :=
  (search_filter_composition
    ⟨true, ⟨[⟨1, "use gpt now".data, [], [], true⟩,
             ⟨2, "gpt tips".data, [], [], false⟩,
             ⟨3, "vim".data, [], [], true⟩], 4, true⟩⟩ false
    "gpt".data true).2.1 (by decide)

/-- C8: with the connection handle unset every storage operation returns its
failure/absent value with the state untouched, and a driver error raised by
any statement is caught: the operation returns the same failure/absent value
(after rollback) instead of propagating the exception. -/
theorem storage_short_circuit (st stF : PromptDB) (fault : Bool)
    (p q : Prompt) (pid pid2 : Nat) (kw kw2 : Str)
    (hc : st.connected = false) :
    (PromptDB.insert_prompt st fault p = (none, st) ∧
     PromptDB.get_prompt_by_id st fault pid = none ∧
     PromptDB.update_prompt st fault p = (false, st) ∧
     PromptDB.delete_prompt st fault pid = (false, st) ∧
     PromptDB.get_all_prompts st fault = [] ∧
     PromptDB.search_prompts st fault kw = [] ∧
     PromptDB.create_table st fault = st) ∧
    (PromptDB.insert_prompt stF true q = (none, stF) ∧
     PromptDB.get_prompt_by_id stF true pid2 = none ∧
     PromptDB.update_prompt stF true q = (false, stF) ∧
     PromptDB.delete_prompt stF true pid2 = (false, stF) ∧
     PromptDB.get_all_prompts stF true = [] ∧
     PromptDB.search_prompts stF true kw2 = [] ∧
     PromptDB.create_table stF true = stF) := by
  constructor
  · unfold PromptDB.insert_prompt PromptDB.get_prompt_by_id
      PromptDB.update_prompt PromptDB.delete_prompt PromptDB.get_all_prompts
      PromptDB.search_prompts PromptDB.create_table
    simp [hc]
  · unfold PromptDB.insert_prompt PromptDB.get_prompt_by_id
      PromptDB.update_prompt PromptDB.delete_prompt PromptDB.get_all_prompts
      PromptDB.search_prompts PromptDB.create_table
    by_cases hc2 : stF.connected
    · cases hq : q.id <;> simp [hc2, hq]
    · simp [hc2]

/-- C8 witness: a concrete disconnected state and a concrete connected state
with a faulting statement. -/
theorem storage_short_circuit_witness :
    (PromptDB.insert_prompt ⟨false, ⟨[], 1, false⟩⟩ false
        ⟨none, "t".data, [], [], false⟩ = (none, ⟨false, ⟨[], 1, false⟩⟩) ∧
     PromptDB.get_prompt_by_id ⟨false, ⟨[], 1, false⟩⟩ false 1 = none ∧
     PromptDB.update_prompt ⟨false, ⟨[], 1, false⟩⟩ false
        ⟨none, "t".data, [], [], false⟩ = (false, ⟨false, ⟨[], 1, false⟩⟩) ∧
     PromptDB.delete_prompt ⟨false, ⟨[], 1, false⟩⟩ false 1 =
        (false, ⟨false, ⟨[], 1, false⟩⟩) ∧
     PromptDB.get_all_prompts ⟨false, ⟨[], 1, false⟩⟩ false = [] ∧
     PromptDB.search_prompts ⟨false, ⟨[], 1, false⟩⟩ false "g".data = [] ∧
     PromptDB.create_table ⟨false, ⟨[], 1, false⟩⟩ false = ⟨false, ⟨[], 1, false⟩⟩) ∧
    (PromptDB.insert_prompt ⟨true, ⟨[], 1, true⟩⟩ true
        ⟨some 1, "u".data, [], [], false⟩ = (none, ⟨true, ⟨[], 1, true⟩⟩) ∧
     PromptDB.get_prompt_by_id ⟨true, ⟨[], 1, true⟩⟩ true 2 = none ∧
     PromptDB.update_prompt ⟨true, ⟨[], 1, true⟩⟩ true
        ⟨some 1, "u".data, [], [], false⟩ = (false, ⟨true, ⟨[], 1, true⟩⟩) ∧
     PromptDB.delete_prompt ⟨true, ⟨[], 1, true⟩⟩ true 2 =
        (false, ⟨true, ⟨[], 1, true⟩⟩) ∧
     PromptDB.get_all_prompts ⟨true, ⟨[], 1, true⟩⟩ true = [] ∧
     PromptDB.search_prompts ⟨true, ⟨[], 1, true⟩⟩ true "h".data = [] ∧
     PromptDB.create_table ⟨true, ⟨[], 1, true⟩⟩ true = ⟨true, ⟨[], 1, true⟩⟩) :=
  storage_short_circuit ⟨false, ⟨[], 1, false⟩⟩ ⟨true, ⟨[], 1, true⟩⟩ false
    ⟨none, "t".data, [], [], false⟩ ⟨some 1, "u".data, [], [], false⟩
    1 2 "g".data "h".data rfl

/-- C9: every `Prompt` produced by a read operation (`get_prompt_by_id`,
`get_all_prompts`, `search_prompts`) has tags that are non-empty and carry
no surrounding whitespace, because `from_dict` strips each comma-separated
piece and drops the ones that are empty after stripping. -/
theorem read_tags_invariant (st : PromptDB) (fault : Bool) (pid : Nat)
    (kw : Str) (p q u : Prompt) (t t2 t3 : Str) :
    (PromptDB.get_prompt_by_id st fault pid = some p → t ∈ p.tags →
      t ≠ [] ∧ trimChars t = t) ∧
    (q ∈ PromptDB.get_all_prompts st fault → t2 ∈ q.tags →
      t2 ≠ [] ∧ trimChars t2 = t2) ∧
    (u ∈ PromptDB.search_prompts st fault kw → t3 ∈ u.tags →
      t3 ≠ [] ∧ trimChars t3 = t3) := by
  refine ⟨?_, ?_, ?_⟩
  · intro hg ht
    unfold PromptDB.get_prompt_by_id at hg
    by_cases hc : st.connected
    · simp only [hc, Bool.not_true, Bool.false_eq_true, if_false] at hg
      cases fault with
      | true => simp at hg
      | false =>
        simp only [Bool.false_eq_true, if_false] at hg
        cases hfind : st.db.rows.find? (fun r => r.id == pid) with
        | none => rw [hfind] at hg; simp at hg
        | some r =>
          rw [hfind] at hg
          simp only [Option.some.injEq] at hg
          subst hg
          exact parseTags_mem ht
    · simp [hc] at hg
  · intro hq ht
    unfold PromptDB.get_all_prompts at hq
    by_cases hc : st.connected
    · cases fault with
      | true => simp [hc] at hq
      | false =>
        simp only [hc, Bool.not_true, Bool.false_eq_true, if_false] at hq
        rcases List.mem_map.mp hq with ⟨r, _, hr⟩
        subst hr
        exact parseTags_mem ht
    · simp [hc] at hq
  · intro hu ht
    unfold PromptDB.search_prompts at hu
    by_cases hc : st.connected
    · cases fault with
      | true => simp [hc] at hu
      | false =>
        simp only [hc, Bool.not_true, Bool.false_eq_true, if_false] at hu
        rcases List.mem_map.mp hu with ⟨r, _, hr⟩
        subst hr
        exact parseTags_mem ht
    · simp [hc] at hu

/-- C9 witness: a concrete row whose stored tags string is `" a ,b"`;
the prompt read back has the stripped tag `"a"`, non-empty and trimmed. -/
theorem read_tags_invariant_witness :
    "a".data ≠ [] ∧ trimChars "a".data = "a".data :=
  (read_tags_invariant
    ⟨true, ⟨[⟨1, "x".data, " a ,b".data, [], false⟩], 2, true⟩⟩ false 1 []
    ⟨some 1, "x".data, ["a".data, "b".data], [], false⟩
    ⟨some 1, "x".data, ["a".data, "b".data], [], false⟩
    ⟨some 1, "x".data, ["a".data, "b".data], [], false⟩
    "a".data "a".data "a".data).1 (by decide) (by decide)

/-- C7, counterexample: special characters in the keyword reach the LIKE
pattern uninterpreted as substring search.  The wildcard keyword `"_"`
returns a row with text `"x"`, and the escape keyword `"\b"` returns a row
with text `"b"`, although neither keyword is a (case-insensitive) substring
of any of the three columns of the returned row — the claim's "exactly the
rows where the keyword is a substring" fails for these keywords. -/
theorem search_keyword_cex :
    (PromptDB.search_prompts ⟨true, ⟨[⟨1, "x".data, [], [], false⟩], 2, true⟩⟩
        false ['_'] ≠ [] ∧
      containsCI ['_'] "x".data = false ∧
      containsCI ['_'] [] = false) ∧
    (PromptDB.search_prompts ⟨true, ⟨[⟨1, "b".data, [], [], false⟩], 2, true⟩⟩
        false ['\\', 'b'] ≠ [] ∧
      containsCI ['\\', 'b'] "b".data = false ∧
      containsCI ['\\', 'b'] [] = false) := by decide

/-- C7 (amended): for every keyword containing no SQL wildcard character
(`%` or `_`) and no escape character (`\`), `search_prompts` on a connected
state returns exactly the stored rows for which the keyword is a
case-insensitive substring of the text field, of the raw comma-joined tags
string, or of the tool field. -/
theorem search_keyword_semantics (st : PromptDB) (kw : Str)
    (hc : st.connected = true) (h1 : '%' ∉ kw) (h2 : '_' ∉ kw)
    (h3 : '\\' ∉ kw) :
    PromptDB.search_prompts st false kw =
      (st.db.rows.filter (fun r =>
        containsCI kw r.text || containsCI kw r.tags || containsCI kw r.tool)).map
        (fun r => Prompt.from_dict r.toDict) := by
  unfold PromptDB.search_prompts
  simp only [hc, Bool.not_true, Bool.false_eq_true, if_false]
  congr 1
  apply List.filter_congr
  intro r _
  unfold likeFilter
  rw [likeMatch_pct_lit_pct kw h1 h2 h3, likeMatch_pct_lit_pct kw h1 h2 h3,
    likeMatch_pct_lit_pct kw h1 h2 h3]

/-- C7 witness: a wildcard-free, escape-free keyword `"gpt"` matching
case-insensitively across text, tags and tool columns. -/
theorem search_keyword_semantics_witness :
    PromptDB.search_prompts
        ⟨true, ⟨[⟨1, "Try ChatGPT".data, [], [], false⟩,
                 ⟨2, "none".data, "ai,GPT-4".data, [], true⟩,
                 ⟨3, "none".data, [], [], false⟩], 4, true⟩⟩ false "gpt".data =
      ((⟨true, ⟨[⟨1, "Try ChatGPT".data, [], [], false⟩,
                 ⟨2, "none".data, "ai,GPT-4".data, [], true⟩,
                 ⟨3, "none".data, [], [], false⟩], 4, true⟩⟩ : PromptDB).db.rows.filter
          (fun r => containsCI "gpt".data r.text || containsCI "gpt".data r.tags ||
            containsCI "gpt".data r.tool)).map
        (fun r => Prompt.from_dict r.toDict) :=
  search_keyword_semantics
    ⟨true, ⟨[⟨1, "Try ChatGPT".data, [], [], false⟩,
             ⟨2, "none".data, "ai,GPT-4".data, [], true⟩,
             ⟨3, "none".data, [], [], false⟩], 4, true⟩⟩ "gpt".data
    rfl (by decide) (by decide) (by decide)

/-- C3: `toggle_favorite_status` returns `(none, st)` when the load by id is
absent; otherwise it flips `is_favorite`, persists via storage update, and
returns the new boolean exactly when the persist returned true (absent
otherwise, with the state the update left behind).  In particular, on a
well-formed connected state, inserting a fresh non-favorite entity and
toggling returns true, a subsequent get shows `is_favorite = true`, and a
second toggle returns false. -/
theorem toggle_semantics (st : PromptDB) (fg fu : Bool) (pid : Nat)
    (p0 : Prompt) (tx : Str) (tg : List Str) (tl : Str) :
    (PromptDB.get_prompt_by_id st fg pid = none →
      PromptService.toggle_favorite_status st fg fu pid = (none, st)) ∧
    (PromptDB.get_prompt_by_id st fg pid = some p0 →
      PromptService.toggle_favorite_status st fg fu pid =
        (if (PromptDB.update_prompt st fu
              { p0 with is_favorite := !p0.is_favorite }).fst
           then some (!p0.is_favorite) else none,
         (PromptDB.update_prompt st fu
            { p0 with is_favorite := !p0.is_favorite }).snd)) ∧
    (st.wf → st.connected = true →
      ∃ st1 st2 st3 : PromptDB,
        PromptDB.insert_prompt st false ⟨none, tx, tg, tl, false⟩ =
          (some st.db.nextId, st1) ∧
        PromptService.toggle_favorite_status st1 false false st.db.nextId =
          (some true, st2) ∧
        (∃ q : Prompt,
          PromptDB.get_prompt_by_id st2 false st.db.nextId = some q ∧
            q.is_favorite = true) ∧
        PromptService.toggle_favorite_status st2 false false st.db.nextId =
          (some false, st3)) := by
  refine ⟨?_, ?_, ?_⟩
  · intro h
    unfold PromptService.toggle_favorite_status
    rw [h]
  · intro h
    unfold PromptService.toggle_favorite_status
    rw [h]
  · intro hwf hc
    obtain ⟨conn, rows, n, te⟩ := st
    cases conn with
    | false => exact absurd hc (by simp)
    | true =>
      have hlt : ∀ x ∈ rows, x.id < n := hwf.1
      have h0 : ∀ x ∈ rows,
          x.id ≠ (⟨n, tx, joinTags tg, tl, false⟩ : Row).id :=
        fun x hx => Nat.ne_of_lt (hlt x hx)
      refine ⟨⟨true, ⟨rows ++ [⟨n, tx, joinTags tg, tl, false⟩], n + 1, te⟩⟩,
        ⟨true, ⟨rows ++ [⟨n, tx, joinTags (parseTags (joinTags tg)), tl, true⟩],
          n + 1, te⟩⟩,
        ⟨true, ⟨rows ++ [⟨n, tx,
          joinTags (parseTags (joinTags (parseTags (joinTags tg)))), tl, false⟩],
          n + 1, te⟩⟩, ?_, ?_, ?_, ?_⟩
      · rfl
      · exact toggle_fresh rows ⟨n, tx, joinTags tg, tl, false⟩ (n + 1) te h0
      · exact ⟨Prompt.from_dict (Row.toDict
            ⟨n, tx, joinTags (parseTags (joinTags tg)), tl, true⟩),
          get_fresh rows ⟨n, tx, joinTags (parseTags (joinTags tg)), tl, true⟩
            (n + 1) te h0, rfl⟩
      · exact toggle_fresh rows
          ⟨n, tx, joinTags (parseTags (joinTags tg)), tl, true⟩ (n + 1) te h0

/-- C3 witness: the fresh insert-toggle-get-toggle scenario on the concrete
empty connected state. -/
theorem toggle_semantics_witness :
    ∃ st1 st2 st3 : PromptDB,
      PromptDB.insert_prompt ⟨true, ⟨[], 1, true⟩⟩ false
          ⟨none, "t".data, ["a".data], [], false⟩ = (some 1, st1) ∧
      PromptService.toggle_favorite_status st1 false false 1 = (some true, st2) ∧
      (∃ q : Prompt, PromptDB.get_prompt_by_id st2 false 1 = some q ∧
        q.is_favorite = true) ∧
      PromptService.toggle_favorite_status st2 false false 1 = (some false, st3) :=
  (toggle_semantics ⟨true, ⟨[], 1, true⟩⟩ false false 1
    ⟨none, [], [], [], false⟩ "t".data ["a".data] []).2.2 (by decide) rfl
